import Mathlib

/-!
Verification development for the EC2024 survey-dashboard repository.

The repository's data-preparation logic lives in two scripts:
* `mentalhealth.py` — `load_data` reads a CSV, derives label columns via
  `Series.map(dict).fillna(default)`, a predicate flag via
  `Series.apply(lambda x: 'Yes' if x > 0 else 'No')`, and two binned columns
  via `pd.cut(..., right=True, include_lowest=True)`; chart code aggregates
  with `groupby(...).size()` and `groupby(...).mean()`.
* `app.py` — `load_data` reads a CSV with pandas' default encoding inside a
  catch-all `try`, returning an empty `DataFrame` on failure; each chart is
  guarded by `if column in df.columns` and otherwise skipped.

Numeric cell values are modelled as `Option ℚ` (`none` models a missing value
/ float NaN in a pandas column); a dataframe is an association list from
column name to column.
-/

deriving instance DecidableEq for Except

namespace EC2024

/-- A pandas DataFrame, modelled as an association list from column name to a
numeric column; a cell holds `none` where the CSV cell is missing (NaN). -/
abbrev Df := List (String × List (Option ℚ))

/-! ## pd.cut -/

/-- Configuration failures raised by `pd.cut` as `ValueError`s:
`binsNotMonotonic` models "bins must increase monotonically" (raised when
some adjacent edge step decreases), `dupEdges` models "Bin edges must be
unique" (raised for duplicate edges unless the bin list has exactly two
edges), `dupLabels` models "labels must be unique if ordered=True" (the
default `ordered=True`), `labelMismatch` models "Bin labels must be one
fewer than the number of bin edges", and `naInBins` models the rejection of
a bin edge that is NaN (as happens in `mentalhealth.py` when
`df['Sleep_Hours'].max()` is NaN). -/
inductive ConfigError where
  | binsNotMonotonic
  | dupEdges
  | dupLabels
  | labelMismatch
  | naInBins
deriving DecidableEq

/-- Index of the first bin edge in `edges` that is `≥ x` (edges strictly after
the lowest edge). With `right=True` this is the right-closed interval `x`
falls into. -/
def binSearch (x : ℚ) : List ℚ → Option Nat
  | [] => none
  | b :: bs => if x ≤ b then some 0 else (binSearch x bs).map (· + 1)

/-- Interval index assigned by `pd.cut(x, bins, right=True, include_lowest=True)`
to the value `x`: `none` when `x` lies below the lowest edge or above the
highest; interval `i` is `(bins[i], bins[i+1]]`, except that a value exactly
equal to `bins[0]` is placed in interval `0` (`include_lowest=True`). -/
def binIndex (bins : List ℚ) (x : ℚ) : Option Nat :=
  match bins with
  | [] => none
  | b0 :: rest => if x < b0 then none else binSearch x rest

/-- The label `pd.cut(..., labels, right=True, include_lowest=True)` assigns to
one cell: `none` (NaN) for a missing input or a value outside the outermost
edges, otherwise the label of the interval the value falls into. -/
def cutValue (bins : List ℚ) (labels : List String) (x : Option ℚ) : Option String :=
  x.bind fun v => (binIndex bins v).bind fun k => labels[k]?

/-- A strictly increasing edge list — the consistency notion named by the
spec's `ConfigurationError` contract ("boundaries must be strictly
increasing"). Every bin configuration written out in the scripts satisfies
it; `pd.cut`'s own validation is the weaker pair of checks below. -/
def strictlyIncr : List ℚ → Bool
  | [] => true
  | [_] => true
  | a :: b :: l => decide (a < b) && strictlyIncr (b :: l)

/-- The numpy check `(np.diff(bins) < 0).any()` behind pandas'
"bins must increase monotonically": some adjacent edge step decreases.
Equal adjacent edges pass this check. -/
def hasDecreasingStep : List ℚ → Bool
  | [] => false
  | [_] => false
  | a :: b :: l => decide (b < a) || hasDecreasingStep (b :: l)

/-- Whether a list contains a repeated element (pandas compares
`len(unique(bins))` with `len(bins)`, and `len(set(labels))` with
`len(labels)`). -/
def hasDup {γ : Type} [DecidableEq γ] : List γ → Bool
  | [] => false
  | a :: l => decide (a ∈ l) || hasDup l

/-- `pd.cut(col, bins, labels, right=True, include_lowest=True)` on a column:
validates the caller-supplied configuration in the order of pandas' checks —
a decreasing edge step ("bins must increase monotonically"), duplicate edges
except when the list has exactly two edges ("Bin edges must be unique"),
duplicate labels under the default `ordered=True` ("labels must be unique if
ordered=True"), and the label count ("Bin labels must be one fewer than the
number of bin edges") — and then maps `cutValue` over the column. -/
def cut (bins : List ℚ) (labels : List String) (col : List (Option ℚ)) :
    Except ConfigError (List (Option String)) :=
  if hasDecreasingStep bins then Except.error ConfigError.binsNotMonotonic
  else if hasDup bins && decide (bins.length ≠ 2) then Except.error ConfigError.dupEdges
  else if hasDup labels then Except.error ConfigError.dupLabels
  else if labels.length + 1 = bins.length then
    Except.ok (col.map (cutValue bins labels))
  else Except.error ConfigError.labelMismatch

/-! ## Series.map(dict).fillna(default) -/

/-- `Series.map(mapping)`: a present value is looked up in the mapping table
(`none`, i.e. NaN, when the value is not a key); a missing value stays
missing. -/
def seriesMap (mapping : List (ℚ × String)) (col : List (Option ℚ)) :
    List (Option String) :=
  col.map fun v => v.bind fun x => mapping.lookup x

/-- `Series.fillna(u)`: every missing cell becomes `u`; present cells are kept. -/
def fillna (u : String) (col : List (Option String)) : List (Option String) :=
  col.map fun x => some (x.getD u)

/-- The label-mapping derivation used for `Gender_Label`, `Support_Label`,
`Self_Harm_Label` and `Education_Level_Label` in `mentalhealth.py`:
`df[c].map(mapping).fillna(u)`. -/
def applyLabelMapping (mapping : List (ℚ × String)) (u : String)
    (col : List (Option ℚ)) : List (Option String) :=
  fillna u (seriesMap mapping col)

/-! ## The predicate flag for Suicide_Attempts -/

/-- The lambda applied row-wise for `Suicide_Attempts_Label`:
`'Yes' if x > 0 else 'No'`. A missing cell reaches the lambda as float NaN,
and `NaN > 0` is `False` in Python, so a missing value yields `"No"`. -/
def suicide_attempts_label (x : Option ℚ) : String :=
  match x with
  | some v => if 0 < v then "Yes" else "No"
  | none => "No"

/-! ## mentalhealth.py load_data -/

/-- `Series.max()` with pandas' default `skipna=True`: the maximum of the
present values, or `none` (NaN) when every value is missing. -/
def colMax (col : List (Option ℚ)) : Option ℚ :=
  (col.filterMap id).max?

/-- Bin edges of the `Depression_Severity` derivation (`bins = [0, 4, 7, 10]`). -/
def sevBins : List ℚ := [0, 4, 7, 10]

/-- Labels of the `Depression_Severity` derivation. -/
def sevLabels : List String := ["Low (0-4)", "Medium (5-7)", "High (8-10)"]

/-- Labels of the `Sleep_Hours_Category` derivation. -/
def sleepLabels : List String := ["<5 hrs (Deficient)", "5-8 hrs (Adequate)", ">8 hrs (High)"]

/-- The `Sleep_Hours_Category` derivation: the top bin edge is
`df['Sleep_Hours'].max()` computed at derivation time, so the cut runs on
`bins = [0, 5, 8, max_sleep]`. When the maximum is NaN (column entirely
missing) pandas rejects the NaN bin edge. -/
def sleepDerivation (sleep : List (Option ℚ)) : Except ConfigError (List (Option String)) :=
  match colMax sleep with
  | none => Except.error ConfigError.naInBins
  | some m => cut [0, 5, 8, m] sleepLabels sleep

/-- Mapping table of `Gender_Label`. -/
def genderMap : List (ℚ × String) := [(0, "Female"), (1, "Male")]

/-- Mapping table of `Support_Label`. -/
def supportMap : List (ℚ × String) := [(0, "No Support"), (1, "Has Support")]

/-- Mapping table of `Self_Harm_Label`. -/
def selfHarmMap : List (ℚ × String) := [(0, "No"), (1, "Yes")]

/-- Mapping table of `Education_Level_Label`. -/
def eduMap : List (ℚ × String) :=
  [(0, "Level 0"), (1, "Level 1"), (2, "Level 2"), (3, "Level 3"), (4, "Level 4")]

/-- The derived columns `mentalhealth.py`'s `load_data` adds to the frame. -/
structure Prepared where
  genderLabel : List (Option String)
  supportLabel : List (Option String)
  selfHarmLabel : List (Option String)
  suicideAttemptsLabel : List String
  educationLevelLabel : List (Option String)
  depressionSeverity : List (Option String)
  sleepHoursCategory : List (Option String)
deriving DecidableEq

/-- Exceptions that can escape the derivation part of `mentalhealth.py`'s
`load_data`: `keyError c` models the `KeyError` raised by `df[c]` when column
`c` is absent, `valueError e` the `ValueError` raised by `pd.cut`. Neither is
caught anywhere in the script, so an error here aborts the whole app. -/
inductive PipelineError where
  | keyError (c : String)
  | valueError (e : ConfigError)
deriving DecidableEq

/-- Column access `df[c]`: the column when present, a `KeyError` otherwise. -/
def getCol (df : Df) (c : String) : Except PipelineError (List (Option ℚ)) :=
  match df.lookup c with
  | some col => Except.ok col
  | none => Except.error (PipelineError.keyError c)

/-- The derivation body of `mentalhealth.py`'s `load_data` (lines 22-44), with
column accesses and `pd.cut` calls performed in source order; the first
uncaught exception aborts the whole preparation. -/
def mhDerive (df : Df) : Except PipelineError Prepared := do
  let gender ← getCol df "Gender"
  let support ← getCol df "Mental_Health_Support"
  let selfHarm ← getCol df "Self_Harm"
  let suicide ← getCol df "Suicide_Attempts"
  let edu ← getCol df "Education_Level"
  let dep ← getCol df "Depression_Score"
  let depSev ← (cut sevBins sevLabels dep).mapError PipelineError.valueError
  let sleep ← getCol df "Sleep_Hours"
  let sleepCat ← (sleepDerivation sleep).mapError PipelineError.valueError
  pure { genderLabel := applyLabelMapping genderMap "Unknown" gender
         supportLabel := applyLabelMapping supportMap "Unknown" support
         selfHarmLabel := applyLabelMapping selfHarmMap "Unknown" selfHarm
         suicideAttemptsLabel := suicide.map suicide_attempts_label
         educationLevelLabel := applyLabelMapping eduMap "Unknown" edu
         depressionSeverity := depSev
         sleepHoursCategory := sleepCat }

/-! ## Aggregation -/

/-- Ordering used by `Series.value_counts()` (default `sort=True, ascending=False`):
descending by count. -/
def byCountDesc {α : Type} (p q : α × Nat) : Prop := q.2 ≤ p.2

instance {α : Type} (p q : α × Nat) : Decidable (byCountDesc p q) :=
  inferInstanceAs (Decidable (q.2 ≤ p.2))

instance {α : Type} : IsTotal (α × Nat) byCountDesc :=
  ⟨fun p q => Nat.le_total q.2 p.2⟩

instance {α : Type} : IsTrans (α × Nat) byCountDesc :=
  ⟨fun _ _ _ hab hbc => le_trans hbc hab⟩

/-- `Series.value_counts()` (as in `app.py`'s `gender_counts`): drops missing
values (`dropna=True`), pairs each distinct present value with the number of
rows carrying it, and orders the result by descending count. -/
def valueCounts {α : Type} [DecidableEq α] (xs : List (Option α)) : List (α × Nat) :=
  List.insertionSort byCountDesc
    ((xs.filterMap id).dedup.map fun a => (a, xs.count (some a)))

/-- A pandas float cell: either NaN or an actual number. `groupby(...).mean()`
produces values of this shape; there is no further "no data" constructor,
because the script has none. -/
inductive PdFloat where
  | nanV
  | val (q : ℚ)
deriving DecidableEq

/-- The measure cells of the rows belonging to group `k` (rows are the
positional zip of the key column and the measure column). -/
def groupRows (keys : List (Option String)) (vals : List (Option ℚ)) (k : String) :
    List (Option ℚ) :=
  (keys.zip vals).filterMap fun p => if p.1 = some k then some p.2 else none

/-- `Series.mean()` with pandas' default `skipna=True`: the arithmetic mean of
the present values, and float NaN when no value is present. -/
def pdMean (xs : List (Option ℚ)) : PdFloat :=
  let vals := xs.filterMap id
  if vals.length = 0 then PdFloat.nanV else PdFloat.val (vals.sum / vals.length)

/-- The distinct group keys `groupby` forms: the distinct present values of the
key column (`groupby` drops missing keys). -/
def groupKeys (keys : List (Option String)) : List String :=
  (keys.filterMap id).dedup

/-- `df.groupby(k, observed=True)[v].mean()` as in `agg_df_sleep`
(`mentalhealth.py` line 135): one mean per group actually present. -/
def groupbyMean (keys : List (Option String)) (vals : List (Option ℚ)) :
    List (String × PdFloat) :=
  (groupKeys keys).map fun k => (k, pdMean (groupRows keys vals k))

/-! ## Loading (app.py and mentalhealth.py load_data) -/

/-- A UTF-8 continuation byte (`0x80..0xBF`). -/
def utf8Cont (b : Nat) : Bool := 0x80 ≤ b && b ≤ 0xBF

/-- Whether a byte sequence is valid UTF-8 (the shortest-form encoding, with
surrogates and code points above `U+10FFFF` rejected). `pd.read_csv` with no
`encoding` argument decodes with UTF-8 and raises `UnicodeDecodeError` on a
sequence this predicate rejects; Latin-1 by contrast decodes every byte. -/
def utf8Valid : List Nat → Bool
  | [] => true
  | b :: rest =>
    if b ≤ 0x7F then utf8Valid rest
    else if 0xC2 ≤ b && b ≤ 0xDF then
      match rest with
      | c1 :: rest2 => utf8Cont c1 && utf8Valid rest2
      | [] => false
    else if b = 0xE0 then
      match rest with
      | c1 :: c2 :: rest2 => (0xA0 ≤ c1 && c1 ≤ 0xBF) && utf8Cont c2 && utf8Valid rest2
      | _ => false
    else if (0xE1 ≤ b && b ≤ 0xEC) || b = 0xEE || b = 0xEF then
      match rest with
      | c1 :: c2 :: rest2 => utf8Cont c1 && utf8Cont c2 && utf8Valid rest2
      | _ => false
    else if b = 0xED then
      match rest with
      | c1 :: c2 :: rest2 => (0x80 ≤ c1 && c1 ≤ 0x9F) && utf8Cont c2 && utf8Valid rest2
      | _ => false
    else if b = 0xF0 then
      match rest with
      | c1 :: c2 :: c3 :: rest2 =>
        (0x90 ≤ c1 && c1 ≤ 0xBF) && utf8Cont c2 && utf8Cont c3 && utf8Valid rest2
      | _ => false
    else if 0xF1 ≤ b && b ≤ 0xF3 then
      match rest with
      | c1 :: c2 :: c3 :: rest2 => utf8Cont c1 && utf8Cont c2 && utf8Cont c3 && utf8Valid rest2
      | _ => false
    else if b = 0xF4 then
      match rest with
      | c1 :: c2 :: c3 :: rest2 =>
        (0x80 ≤ c1 && c1 ≤ 0x8F) && utf8Cont c2 && utf8Cont c3 && utf8Valid rest2
      | _ => false
    else false

/-- The two candidate text encodings the spec discusses. The scripts only ever
use pandas' default (`utf8`); `latin1` is the documented fallback that never
appears in the code. -/
inductive Encoding where
  | utf8
  | latin1
deriving DecidableEq

/-- Whether decoding the bytes under the given encoding succeeds: UTF-8
requires a valid byte sequence, Latin-1 decodes any byte. -/
def decodeOk : Encoding → List Nat → Bool
  | Encoding.utf8, bs => utf8Valid bs
  | Encoding.latin1, _ => true

/-- A dataset source: whether the file/URL can be retrieved at all, and its raw
bytes when it can. -/
structure Source where
  available : Bool
  bytes : List Nat

/-- `pd.read_csv` on a source under one encoding. The CSV tokenizer itself is
an external collaborator, abstracted as `parseTable` (returning `none` models
`EmptyDataError`/`ParserError`); decoding failure and an unavailable source
also yield failure. -/
def pdReadCsv (parseTable : List Nat → Option Df) (enc : Encoding) (s : Source) :
    Option Df :=
  if s.available ∧ decodeOk enc s.bytes then parseTable s.bytes else none

/-- `df.columns.str.strip()` of `app.py` line 20. -/
def stripCols (df : Df) : Df := df.map fun p => (p.1.trim, p.2)

/-- `app.py`'s `load_data` (lines 14-24): one `pd.read_csv` with pandas'
default encoding inside `try`; any failure is caught, an error message is
displayed with `st.error`, and the bare empty `pd.DataFrame()` (no columns,
no rows) is returned. No second encoding is ever attempted. -/
def app_load_data (parseTable : List Nat → Option Df) (s : Source) : Df :=
  match pdReadCsv parseTable Encoding.utf8 s with
  | some df => stripCols df
  | none => []

/-- Outcome of `mentalhealth.py`'s `load_data` (lines 10-46): `ok` when the
read and every derivation succeed; `stopped` when `FileNotFoundError` is
caught and `st.stop()` halts the script; `raisedRead` when a decode or parse
failure escapes the `try` (only `FileNotFoundError` is caught); `raisedPrep`
when a derivation raises. -/
inductive MhResult where
  | ok (p : Prepared)
  | stopped
  | raisedRead
  | raisedPrep (e : PipelineError)
deriving DecidableEq

/-- `mentalhealth.py`'s `load_data`: read the CSV with pandas' default
encoding (no fallback), halting via `st.stop()` only on a missing file, then
run the derivations, whose exceptions propagate uncaught. -/
def mh_load_data (parseTable : List Nat → Option Df) (s : Source) : MhResult :=
  if s.available then
    if decodeOk Encoding.utf8 s.bytes then
      match parseTable s.bytes with
      | some df =>
        match mhDerive df with
        | Except.ok p => MhResult.ok p
        | Except.error e => MhResult.raisedPrep e
      | none => MhResult.raisedRead
    else MhResult.raisedRead
  else MhResult.stopped

/-- A sample external CSV tokenizer used to instantiate concrete loading
scenarios: it parses any decoded byte stream into a one-column table. -/
def demoParse : List Nat → Option Df := fun _ => some [("A", [some 1])]

/-- A sample source whose bytes (`0x41 0xFF`) are not valid UTF-8 but decode
fine under Latin-1 (every byte does). -/
def latin1OnlySource : Source := ⟨true, [0x41, 0xFF]⟩

/-- A sample source that cannot be retrieved at all. -/
def missingSource : Source := ⟨false, [0x41]⟩

/-! ## Per-chart column guards in app.py -/

/-- Outcome of one guarded chart block in `app.py`: either the chart is
rendered from the guarded column, or the block shows the
"Cannot display plot for missing column" message and is skipped. -/
inductive ChartResult where
  | chart (c : String) (col : List (Option ℚ))
  | skippedMissing (c : String)
deriving DecidableEq

/-- One `if COL in df.columns: ... else: st.info(...)` block of `app.py`. -/
def renderChart (df : Df) (c : String) : ChartResult :=
  match df.lookup c with
  | some col => ChartResult.chart c col
  | none => ChartResult.skippedMissing c

/-- The guarded columns of `app.py`'s chart sections, in page order. -/
def appColumns : List String :=
  ["Gender",
   "Did you ever attend a Coaching center?",
   "H.S.C or Equivalent study medium",
   "H.S.C (GPA)",
   "S.S.C (GPA)",
   "Q5 [To what extent your expectation was met?]"]

/-- The chart sections of `app.py`, each independently guarded on its own
column. -/
def appPage (df : Df) : List ChartResult :=
  appColumns.map (renderChart df)

/-! ## Helper lemmas -/

theorem strictlyIncr_iff (l : List ℚ) :
    strictlyIncr l = true ↔ List.Chain' (· < ·) l := by
  induction l with
  | nil => simp [strictlyIncr]
  | cons a l ih =>
    cases l with
    | nil => simp [strictlyIncr]
    | cons b l2 =>
      simp [strictlyIncr, List.chain'_cons] at ih ⊢
      tauto

theorem strictlyIncr_pairwise (l : List ℚ) (h : strictlyIncr l = true) :
    List.Pairwise (· < ·) l :=
  List.chain'_iff_pairwise.mp ((strictlyIncr_iff l).mp h)

theorem hasDecreasingStep_iff (l : List ℚ) :
    hasDecreasingStep l = false ↔ List.Chain' (· ≤ ·) l := by
  induction l with
  | nil => simp [hasDecreasingStep]
  | cons a l ih =>
    cases l with
    | nil => simp [hasDecreasingStep]
    | cons b l2 =>
      simp [hasDecreasingStep, List.chain'_cons, not_lt] at ih ⊢
      tauto

theorem hasDup_iff {γ : Type} [DecidableEq γ] (l : List γ) :
    hasDup l = true ↔ ¬ l.Nodup := by
  induction l with
  | nil => simp [hasDup]
  | cons a l ih =>
    simp [hasDup, List.nodup_cons, ih]
    tauto

theorem binSearch_some_lt (x : ℚ) (bs : List ℚ) (k : Nat)
    (h : binSearch x bs = some k) : k < bs.length := by
  induction bs generalizing k with
  | nil => simp [binSearch] at h
  | cons b bs ih =>
    simp only [binSearch] at h
    by_cases hx : x ≤ b
    · rw [if_pos hx] at h
      cases h
      simp
    · rw [if_neg hx] at h
      obtain ⟨k2, hk2, rfl⟩ := Option.map_eq_some'.mp h
      have := ih k2 hk2
      simp
      omega

theorem binSearch_none_of_forall_lt (x : ℚ) (bs : List ℚ)
    (h : ∀ b ∈ bs, b < x) : binSearch x bs = none := by
  induction bs with
  | nil => rfl
  | cons b bs ih =>
    have hb : b < x := h b (List.mem_cons_self b bs)
    simp only [binSearch, if_neg (not_le.mpr hb)]
    rw [ih fun c hc => h c (List.mem_cons_of_mem b hc)]
    rfl

theorem binSearch_hit (x : ℚ) (bs : List ℚ) (j : Nat)
    (hp : List.Pairwise (· < ·) bs) (hj : bs[j]? = some x) :
    binSearch x bs = some j := by
  induction bs generalizing j with
  | nil => simp at hj
  | cons b bs ih =>
    cases j with
    | zero =>
      simp at hj
      simp [binSearch, hj, if_pos (le_refl x)]
    | succ j =>
      simp at hj
      have hmem : x ∈ bs := by
        obtain ⟨hlt, rfl⟩ := List.getElem?_eq_some.mp hj
        exact List.getElem_mem hlt
      have hbx : b < x := (List.pairwise_cons.mp hp).1 x hmem
      simp only [binSearch, if_neg (not_le.mpr hbx),
        ih j (List.pairwise_cons.mp hp).2 hj, Option.map]

theorem mem_of_getLast? {α : Type} (l : List α) (m : α)
    (hm : l.getLast? = some m) : m ∈ l := by
  induction l with
  | nil => simp at hm
  | cons a l ih =>
    cases l with
    | nil =>
      simp [List.getLast?] at hm
      simp [hm]
    | cons b l2 =>
      rw [List.getLast?_cons_cons] at hm
      exact List.mem_cons_of_mem a (ih hm)

theorem le_getLast_of_pairwise (l : List ℚ) (hp : List.Pairwise (· < ·) l)
    (m : ℚ) (hm : l.getLast? = some m) (b : ℚ) (hb : b ∈ l) : b ≤ m := by
  induction l with
  | nil => simp at hb
  | cons a l ih =>
    cases l with
    | nil =>
      simp [List.getLast?] at hm
      simp at hb
      simp [hb, hm]
    | cons c l2 =>
      rw [List.getLast?_cons_cons] at hm
      rcases List.mem_cons.mp hb with rfl | hb2
      · have hmem : m ∈ c :: l2 := mem_of_getLast? _ _ hm
        exact le_of_lt ((List.pairwise_cons.mp hp).1 m hmem)
      · exact ih (List.pairwise_cons.mp hp).2 hm hb2

theorem count_perm {γ : Type} [BEq γ] (xs ys : List γ) (h : xs.Perm ys) (v : γ) :
    xs.count v = ys.count v := by
  induction h with
  | nil => rfl
  | cons a h ih => simp [List.count_cons, ih]
  | swap a b l =>
    simp only [List.count_cons]
    ring
  | trans h1 h2 ih1 ih2 => exact ih1.trans ih2

theorem lookup_map_self {β : Type} (l : List String) (f : String → β) (k : String)
    (hk : k ∈ l) : (l.map fun a => (a, f a)).lookup k = some (f k) := by
  induction l with
  | nil => simp at hk
  | cons a l ih =>
    by_cases hka : k = a
    · subst hka
      simp [List.lookup]
    · rcases List.mem_cons.mp hk with rfl | hk2
      · exact absurd rfl hka
      · simpa [List.lookup, beq_eq_false_iff_ne.mpr hka] using ih hk2

theorem except_bind_ok {ε α β : Type} (a : Except ε α) (f : α → Except ε β)
    (b : β) (h : (a >>= f) = Except.ok b) :
    ∃ x, a = Except.ok x ∧ f x = Except.ok b := by
  cases a with
  | error e => exact Except.noConfusion h
  | ok x => exact ⟨x, rfl, h⟩

theorem except_mapError_ok {ε ε2 α : Type} (g : ε → ε2) (a : Except ε α) (b : α)
    (h : a.mapError g = Except.ok b) : a = Except.ok b := by
  cases a with
  | error e => exact Except.noConfusion h
  | ok x => simpa [Except.mapError] using h

theorem except_isOk_exists {ε α : Type} (a : Except ε α) (h : a.isOk = true) :
    ∃ x, a = Except.ok x := by
  cases a with
  | ok x => exact ⟨x, rfl⟩
  | error e => simp [Except.isOk, Except.toBool] at h

theorem sleepDerivation_ok_iff (sleep : List (Option ℚ)) :
    (∃ r, sleepDerivation sleep = Except.ok r) ↔
      (∃ m, colMax sleep = some m ∧ 8 < m) := by
  cases hc : colMax sleep with
  | none => simp [sleepDerivation, hc]
  | some m =>
    by_cases h8 : 8 < m
    · have hdec : hasDecreasingStep [0, 5, 8, m] = false := by
        rw [hasDecreasingStep_iff]
        exact List.chain'_cons.mpr ⟨by norm_num,
          List.chain'_cons.mpr ⟨by norm_num,
            List.chain'_cons.mpr ⟨h8.le, List.chain'_singleton m⟩⟩⟩
      have hm0 : m ≠ 0 := by linarith
      have hm5 : m ≠ 5 := by linarith
      have hm8 : m ≠ 8 := by linarith
      have hdup : hasDup [(0:ℚ), 5, 8, m] = false := by
        rw [Bool.eq_false_iff, Ne, hasDup_iff, not_not]
        simp [List.nodup_cons, hm0.symm, hm5.symm, hm8.symm]
      have hlab :
          hasDup ["<5 hrs (Deficient)", "5-8 hrs (Adequate)", ">8 hrs (High)"] = false := by
        decide
      simp [sleepDerivation, hc, cut, hdec, hdup, hlab, sleepLabels, h8]
    · rcases lt_or_eq_of_le (not_lt.mp h8) with hlt | heq
      · have hdec : hasDecreasingStep [0, 5, 8, m] = true := by
          simp [hasDecreasingStep, hlt]
        simp [sleepDerivation, hc, cut, hdec, h8]
      · subst heq
        have hdec : hasDecreasingStep [(0:ℚ), 5, 8, 8] = false := by decide
        have hdup : hasDup [(0:ℚ), 5, 8, 8] = true := by decide
        simp [sleepDerivation, hc, cut, hdec, hdup]

/-! ## Claims -/

/-- C1: for every valid binning configuration (strictly increasing edges, one
label fewer than edges) and every cell, `pd.cut` with
`right=True, include_lowest=True` classifies the cell into one of the
supplied labels or into the distinct unclassified outcome `none`: a produced
label is always one of `labels`; a missing cell is unclassified; a value
below the lowest or above the highest edge is unclassified; a value exactly
at the lowest edge receives the first label; and a value exactly at edge
`j ≥ 1` receives label `j - 1`, i.e. it belongs to the lower of the two
adjacent ranges (right-inclusive tie-break). -/
theorem cut_classification (bins : List ℚ) (labels : List String)
    (hmono : strictlyIncr bins = true)
    (hlen : labels.length + 1 = bins.length) :
    (∀ x l, cutValue bins labels x = some l → l ∈ labels) ∧
    cutValue bins labels none = none ∧
    (∀ q b0, bins.head? = some b0 → q < b0 →
      cutValue bins labels (some q) = none) ∧
    (∀ q m, bins.getLast? = some m → m < q →
      cutValue bins labels (some q) = none) ∧
    (∀ b0, bins.head? = some b0 → 2 ≤ bins.length →
      ∃ l0, labels[0]? = some l0 ∧ cutValue bins labels (some b0) = some l0) ∧
    (∀ j q, 1 ≤ j → bins[j]? = some q →
      ∃ l, labels[j - 1]? = some l ∧ cutValue bins labels (some q) = some l) := by
  have hpw := strictlyIncr_pairwise bins hmono
  refine ⟨?_, rfl, ?_, ?_, ?_, ?_⟩
  · intro x l h
    cases x with
    | none => simp [cutValue] at h
    | some v =>
      simp only [cutValue, Option.some_bind] at h
      obtain ⟨k, _, hlk⟩ := Option.bind_eq_some.mp h
      obtain ⟨hlt, rfl⟩ := List.getElem?_eq_some.mp hlk
      exact List.getElem_mem hlt
  · intro q b0 hb0 hq
    cases bins with
    | nil => simp at hb0
    | cons b rest =>
      simp at hb0
      subst hb0
      simp [cutValue, binIndex, if_pos hq]
  · intro q m hm hq
    cases bins with
    | nil => simp at hm
    | cons b rest =>
      have hble : ∀ c, c ∈ b :: rest → c < q := fun c hc =>
        lt_of_le_of_lt (le_getLast_of_pairwise _ hpw m hm c hc) hq
      have hnone : binSearch q rest = none :=
        binSearch_none_of_forall_lt q rest fun c hc =>
          hble c (List.mem_cons_of_mem b hc)
      have hnb : ¬ q < b := not_lt.mpr (le_of_lt (hble b (List.mem_cons_self b rest)))
      simp [cutValue, binIndex, if_neg hnb, hnone]
  · intro b0 hb0 hlen2
    cases bins with
    | nil => simp at hb0
    | cons b rest =>
      simp at hb0
      subst hb0
      cases rest with
      | nil => simp at hlen2
      | cons b1 rest2 =>
        have hb01 : b < b1 :=
          (List.pairwise_cons.mp hpw).1 b1 (List.mem_cons_self _ _)
        have hlab : 0 < labels.length := by
          simp at hlen
          omega
        refine ⟨labels[0], List.getElem?_eq_getElem hlab, ?_⟩
        simp [cutValue, binIndex, if_neg (lt_irrefl b), binSearch,
          if_pos (le_of_lt hb01), List.getElem?_eq_getElem hlab]
  · intro j q hj hjq
    cases bins with
    | nil => simp at hjq
    | cons b rest =>
      obtain ⟨j2, rfl⟩ : ∃ j2, j = j2 + 1 := ⟨j - 1, by omega⟩
      have hrest : rest[j2]? = some q := by simpa using hjq
      have hq_mem : q ∈ rest := by
        obtain ⟨hlt, rfl⟩ := List.getElem?_eq_some.mp hrest
        exact List.getElem_mem hlt
      have hbq : b < q := (List.pairwise_cons.mp hpw).1 q hq_mem
      have hbs : binSearch q rest = some j2 :=
        binSearch_hit q rest j2 (List.pairwise_cons.mp hpw).2 hrest
      have hj2lab : j2 < labels.length := by
        have := binSearch_some_lt q rest j2 hbs
        simp at hlen
        omega
      refine ⟨labels[j2], ?_, ?_⟩
      · simp [List.getElem?_eq_getElem hj2lab]
      · simp [cutValue, binIndex, if_neg (not_lt.mpr (le_of_lt hbq)), hbs,
          List.getElem?_eq_getElem hj2lab]

/-- Witness for C1: the `Depression_Severity` configuration is valid, and a
score exactly at the lowest edge `0` is classified into the first range. -/
theorem cut_classification_witness :
    strictlyIncr sevBins = true ∧ sevLabels.length + 1 = sevBins.length ∧
    (∃ l0, sevLabels[0]? = some l0 ∧
      cutValue sevBins sevLabels (some 0) = some l0) := by
  refine ⟨by decide, by decide, ?_⟩
  exact (cut_classification sevBins sevLabels (by decide)
    (by decide)).2.2.2.2.1 0 rfl (by decide)

/-- C2: the label-mapping derivation `df[c].map(mapping).fillna(u)` is total:
the output has the same row count (and, being positional, the same order) as
the input, and the cell at every row index is a present (non-null) label that
is either the mapping-table image of the row's value or the default label
`u` (the latter exactly when the value is missing or not a key). -/
theorem applyLabelMapping_total (mapping : List (ℚ × String)) (u : String)
    (col : List (Option ℚ)) (i : Nat) (h : i < col.length) :
    (applyLabelMapping mapping u col).length = col.length ∧
    ∃ l, (applyLabelMapping mapping u col)[i]? = some (some l) ∧
      ((∃ v, col[i]? = some (some v) ∧ mapping.lookup v = some l) ∨
        (l = u ∧ (col[i]? = some none ∨
          ∃ v, col[i]? = some (some v) ∧ mapping.lookup v = none))) := by
  constructor
  · simp [applyLabelMapping, fillna, seriesMap]
  · have hx : col[i]? = some col[i] := List.getElem?_eq_getElem h
    cases hv : col[i] with
    | none =>
      refine ⟨u, ?_, Or.inr ⟨rfl, Or.inl (by rw [hx, hv])⟩⟩
      simp [applyLabelMapping, fillna, seriesMap, hx, hv]
    | some v =>
      cases hm : mapping.lookup v with
      | none =>
        refine ⟨u, ?_, Or.inr ⟨rfl, Or.inr ⟨v, by rw [hx, hv], hm⟩⟩⟩
        simp [applyLabelMapping, fillna, seriesMap, hx, hv, hm]
      | some l =>
        refine ⟨l, ?_, Or.inl ⟨v, by rw [hx, hv], hm⟩⟩
        simp [applyLabelMapping, fillna, seriesMap, hx, hv, hm]

/-- Witness for C2: the gender mapping on the column `[0, 7, missing]` at row
index `1` (the unmapped code `7`). -/
theorem applyLabelMapping_total_witness :
    1 < ([some (0:ℚ), some 7, none] : List (Option ℚ)).length ∧
    ((applyLabelMapping genderMap "Unknown" [some (0:ℚ), some 7, none]).length =
      ([some (0:ℚ), some 7, none] : List (Option ℚ)).length ∧
    ∃ l, (applyLabelMapping genderMap "Unknown" [some (0:ℚ), some 7, none])[1]? =
        some (some l) ∧
      ((∃ v, ([some (0:ℚ), some 7, none] : List (Option ℚ))[1]? = some (some v) ∧
          genderMap.lookup v = some l) ∨
        (l = "Unknown" ∧
          (([some (0:ℚ), some 7, none] : List (Option ℚ))[1]? = some none ∨
            ∃ v, ([some (0:ℚ), some 7, none] : List (Option ℚ))[1]? = some (some v) ∧
              genderMap.lookup v = none)))) :=
  ⟨by decide, applyLabelMapping_total genderMap "Unknown" [some 0, some 7, none] 1 (by decide)⟩

/-- C3 counterexample: the claim's iteration-order clause fails on the code.
`value_counts` on a column whose values appear in the order B, A, A iterates
A before B (descending count), not in insertion order of first appearance
(which would be B before A). -/
theorem valueCounts_not_insertion_order :
    (valueCounts [some "B", some "A", some "A"]).map Prod.fst = ["A", "B"] ∧
    (["A", "B"] : List String) ≠ ["B", "A"] := by
  constructor
  · decide
  · decide

/-- C3 (amended): the count aggregation's key set is exactly the set of
distinct values actually present (no synthetic zero-count entries), each key
carries its row count, the key-to-count mapping is invariant under
permutation of the input rows — but iteration order is descending count
order (`value_counts`' default `sort=True, ascending=False`), not insertion
order of first appearance. -/
theorem valueCounts_spec {α : Type} [DecidableEq α] (xs ys : List (Option α))
    (hperm : xs.Perm ys) :
    (∀ a n, (a, n) ∈ valueCounts xs ↔ (some a ∈ xs ∧ n = xs.count (some a))) ∧
    List.Sorted byCountDesc (valueCounts xs) ∧
    (∀ p, p ∈ valueCounts xs ↔ p ∈ valueCounts ys) := by
  have hchar : ∀ (zs : List (Option α)) (a : α) (n : Nat),
      (a, n) ∈ valueCounts zs ↔ (some a ∈ zs ∧ n = zs.count (some a)) := by
    intro zs a n
    rw [valueCounts, (List.perm_insertionSort byCountDesc _).mem_iff]
    simp only [List.mem_map, List.mem_dedup, List.mem_filterMap, id_eq,
      Prod.mk.injEq]
    constructor
    · rintro ⟨b, ⟨o, ho, rfl⟩, rfl, rfl⟩
      exact ⟨ho, rfl⟩
    · rintro ⟨ha, rfl⟩
      exact ⟨a, ⟨some a, ha, rfl⟩, rfl, rfl⟩
  refine ⟨hchar xs, List.sorted_insertionSort byCountDesc _, ?_⟩
  rintro ⟨a, n⟩
  rw [hchar xs, hchar ys, hperm.mem_iff, count_perm xs ys hperm (some a)]

/-- Witness for C3: two permutations of the same two-row column. -/
theorem valueCounts_spec_witness :
    ([some "A", some "B"] : List (Option String)).Perm [some "B", some "A"] ∧
    ((∀ a n, (a, n) ∈ valueCounts [some "A", some "B"] ↔
        (some a ∈ ([some "A", some "B"] : List (Option String)) ∧
          n = ([some "A", some "B"] : List (Option String)).count (some a))) ∧
      List.Sorted byCountDesc (valueCounts [some "A", some "B"]) ∧
      (∀ p, p ∈ valueCounts [some "A", some "B"] ↔
        p ∈ valueCounts [some "B", some "A"])) :=
  ⟨List.Perm.swap (some "B") (some "A") [],
    valueCounts_spec [some "A", some "B"] [some "B", some "A"]
      (List.Perm.swap (some "B") (some "A") [])⟩

/-- C4 counterexample: in `mentalhealth.py` a missing column does abort the
whole pipeline. On a frame lacking the `Gender` column, the very first
derivation of `load_data` raises `KeyError`, which no code catches, so every
downstream chart dies with it. -/
theorem mh_missing_column_aborts :
    mhDerive [("Depression_Score", [some 3])] =
      Except.error (PipelineError.keyError "Gender") := by decide

/-- C4 (amended): in `app.py` every chart block independently checks its own
column — the block is skipped with a message exactly when its column is
absent, a block's outcome depends only on its own column, and every sibling
block is still produced — but in `mentalhealth.py` the derivation step
accesses columns unguarded, so there a missing `Gender` column raises
`KeyError` and aborts the whole preparation. -/
theorem missing_column_handling (df df2 : Df) (c : String) (i : Nat)
    (hi : i < appColumns.length) :
    (renderChart df c = ChartResult.skippedMissing c ↔ df.lookup c = none) ∧
    (df.lookup c = df2.lookup c → renderChart df c = renderChart df2 c) ∧
    (appPage df)[i]? = some (renderChart df (appColumns.get ⟨i, hi⟩)) ∧
    (df.lookup "Gender" = none →
      mhDerive df = Except.error (PipelineError.keyError "Gender")) := by
  refine ⟨?_, ?_, ?_, ?_⟩
  · unfold renderChart
    cases df.lookup c with
    | none => simp
    | some col => simp
  · intro h
    unfold renderChart
    rw [h]
  · simp [appPage, List.getElem?_map, List.getElem?_eq_getElem hi]
  · intro h
    have hg : getCol df "Gender" = Except.error (PipelineError.keyError "Gender") := by
      simp [getCol, h]
    simp [mhDerive, hg, Bind.bind, Except.bind]

/-- Witness for C4: the first chart column on a frame having only an `Age`
column. -/
theorem missing_column_handling_witness :
    0 < appColumns.length ∧
    ((renderChart [("Age", [some (20:ℚ)])] "Gender" =
        ChartResult.skippedMissing "Gender" ↔
      ([("Age", [some (20:ℚ)])] : Df).lookup "Gender" = none) ∧
    (([("Age", [some (20:ℚ)])] : Df).lookup "Gender" = (([] : Df)).lookup "Gender" →
      renderChart [("Age", [some (20:ℚ)])] "Gender" = renderChart [] "Gender") ∧
    (appPage [("Age", [some (20:ℚ)])])[0]? =
      some (renderChart [("Age", [some (20:ℚ)])]
        (appColumns.get ⟨0, by decide⟩)) ∧
    (([("Age", [some (20:ℚ)])] : Df).lookup "Gender" = none →
      mhDerive [("Age", [some (20:ℚ)])] =
        Except.error (PipelineError.keyError "Gender"))) :=
  ⟨by decide,
    missing_column_handling [("Age", [some 20])] [] "Gender" 0 (by decide)⟩

/-- C5 counterexample: neither `load_data` ever tries a second encoding. On a
retrievable source whose bytes are decodable only under the Latin-1 fallback
(and which the tokenizer would parse into a non-empty table), `app.py`'s
`load_data` returns the empty load-failure frame instead of a non-empty
Dataset, because the single `pd.read_csv` call fails under the default
UTF-8 and the `except` branch returns `pd.DataFrame()`. -/
theorem fallback_only_source_fails :
    decodeOk Encoding.utf8 latin1OnlySource.bytes = false ∧
    decodeOk Encoding.latin1 latin1OnlySource.bytes = true ∧
    demoParse latin1OnlySource.bytes = some [("A", [some 1])] ∧
    app_load_data demoParse latin1OnlySource = [] ∧
    ([("A", [some (1:ℚ)])] : Df) ≠ [] := by
  refine ⟨by decide, rfl, rfl, by decide, by decide⟩

/-- C5 (amended): both `load_data` functions attempt only pandas' default
(primary) encoding and never retry with a fallback: whenever UTF-8 decoding
fails, `app.py`'s loader returns the empty failure frame and
`mentalhealth.py`'s loader lets the decode error propagate — regardless of
whether a fallback encoding would have succeeded. -/
theorem no_fallback_encoding (parseTable : List Nat → Option Df) (s : Source)
    (h : decodeOk Encoding.utf8 s.bytes = false) :
    app_load_data parseTable s = [] ∧
    (s.available = true → mh_load_data parseTable s = MhResult.raisedRead) := by
  constructor
  · simp [app_load_data, pdReadCsv, h]
  · intro ha
    simp [mh_load_data, h, ha]

/-- Witness for C5: the Latin-1-only source. -/
theorem no_fallback_encoding_witness :
    decodeOk Encoding.utf8 latin1OnlySource.bytes = false ∧
    latin1OnlySource.available = true ∧
    (app_load_data demoParse latin1OnlySource = [] ∧
      (latin1OnlySource.available = true →
        mh_load_data demoParse latin1OnlySource = MhResult.raisedRead)) :=
  ⟨by decide, rfl, no_fallback_encoding demoParse latin1OnlySource (by decide)⟩

/-- C6 counterexample: `mentalhealth.py`'s `load_data` does not return an
explicit load-failed value for every failing source: on an unretrievable
file it displays an error and halts the script via `st.stop()`, and on a
source whose bytes fail UTF-8 decoding the `UnicodeDecodeError` escapes the
`try` (which catches only `FileNotFoundError`) and propagates. -/
theorem mh_load_failure_not_returned :
    mh_load_data demoParse missingSource = MhResult.stopped ∧
    mh_load_data demoParse ⟨true, [0xFF]⟩ = MhResult.raisedRead :=
  ⟨by decide, by decide⟩

/-- C6 (amended): `app.py`'s `load_data` returns the bare empty frame (zero
columns) after displaying the error whenever retrieval/parsing fails, and a
successful load whose parsed table is non-empty yields a non-empty result —
so the failure value is distinguishable from any successful load of a table
with at least one column; `mentalhealth.py`'s `load_data`, by contrast,
halts the script on a missing file rather than returning a failure value. -/
theorem load_failure_surface (parseTable : List Nat → Option Df) (s : Source)
    (df : Df) :
    (pdReadCsv parseTable Encoding.utf8 s = none →
      app_load_data parseTable s = []) ∧
    (pdReadCsv parseTable Encoding.utf8 s = some df → df ≠ [] →
      app_load_data parseTable s = stripCols df ∧ stripCols df ≠ []) ∧
    (s.available = false → mh_load_data parseTable s = MhResult.stopped) := by
  refine ⟨?_, ?_, ?_⟩
  · intro h
    simp [app_load_data, h]
  · intro h hne
    refine ⟨by simp [app_load_data, h], ?_⟩
    simpa [stripCols] using hne
  · intro h
    simp [mh_load_data, h]

/-- Witness for C6: the unretrievable source, plus a well-formed UTF-8 source
parsed into a non-empty one-column table. -/
theorem load_failure_surface_witness :
    pdReadCsv demoParse Encoding.utf8 missingSource = none ∧
    app_load_data demoParse missingSource = [] ∧
    missingSource.available = false ∧
    mh_load_data demoParse missingSource = MhResult.stopped ∧
    pdReadCsv demoParse Encoding.utf8 ⟨true, [0x41]⟩ = some [("A", [some 1])] ∧
    ([("A", [some (1:ℚ)])] : Df) ≠ [] ∧
    (app_load_data demoParse ⟨true, [0x41]⟩ = stripCols [("A", [some 1])] ∧
      stripCols [("A", [some (1:ℚ)])] ≠ []) :=
  ⟨by decide,
    (load_failure_surface demoParse missingSource [("A", [some 1])]).1 (by decide),
    rfl,
    (load_failure_surface demoParse missingSource [("A", [some 1])]).2.2 rfl,
    by decide,
    by decide,
    (load_failure_surface demoParse ⟨true, [0x41]⟩ [("A", [some 1])]).2.1
      (by decide) (by decide)⟩

/-- C7 counterexample: the mean aggregation of `mentalhealth.py` line 135
yields the floating NaN — not any distinct "no data" marker — for a group
whose only row has a missing measure value: the group's output cell is
`PdFloat.nanV`, the model of numpy's NaN, which flows on into the bar
chart's numeric formatting. -/
theorem groupbyMean_nan_counterexample :
    groupbyMean [some "5-8 hrs (Adequate)"] [none] =
      [("5-8 hrs (Adequate)", PdFloat.nanV)] := by decide

/-- C7 (amended): mean aggregation over a group whose rows all have missing
measure values returns NaN for that group (pandas' `skipna` mean of an empty
set of values), not an explicit "no data" marker. -/
theorem groupbyMean_all_missing_nan (keys : List (Option String))
    (vals : List (Option ℚ)) (k : String) (hk : some k ∈ keys)
    (hmiss : (groupRows keys vals k).filterMap id = []) :
    (groupbyMean keys vals).lookup k = some PdFloat.nanV := by
  have hkk : k ∈ groupKeys keys := by
    simp only [groupKeys, List.mem_dedup, List.mem_filterMap, id_eq]
    exact ⟨some k, hk, rfl⟩
  have := lookup_map_self (groupKeys keys)
    (fun k2 => pdMean (groupRows keys vals k2)) k hkk
  rw [groupbyMean, this]
  simp [pdMean, hmiss]

/-- Witness for C7: one group, one row, missing measure value. -/
theorem groupbyMean_all_missing_nan_witness :
    some "A" ∈ ([some "A"] : List (Option String)) ∧
    (groupRows [some "A"] [none] "A").filterMap id = [] ∧
    (groupbyMean [some "A"] [none]).lookup "A" = some PdFloat.nanV :=
  ⟨by decide, by decide,
    groupbyMean_all_missing_nan [some "A"] [none] "A" (by decide) (by decide)⟩

/-- C8 counterexample: `pd.cut`'s failure condition is not exactly the
claimed pair of consistency conditions, in either direction. With the
default `ordered=True`, duplicate labels raise a `ValueError` even though
the label count matches and the edges strictly increase; and the two-edge
list `[5, 5]` is accepted — pandas' monotonicity check is non-strict and its
duplicate-edge check exempts `len(bins) == 2` — even though its edges are
not strictly increasing (the degenerate bin then classifies the value
exactly at the repeated edge, via `include_lowest`). -/
theorem cut_error_beyond_claimed_conditions :
    cut [0, 1, 2] ["a", "a"] [] = Except.error ConfigError.dupLabels ∧
    strictlyIncr [0, 1, 2] = true ∧
    (["a", "a"] : List String).length + 1 = ([0, 1, 2] : List ℚ).length ∧
    cut [5, 5] ["a"] [some 5] = Except.ok [some "a"] ∧
    strictlyIncr [5, 5] = false :=
  ⟨by decide, by decide, by decide, by decide, by decide⟩

/-- C8 (amended): `pd.cut` fails with a configuration `ValueError` exactly
when some bin-edge step decreases, or the edges contain a duplicate and the
edge list does not have exactly two entries, or the labels contain a
duplicate (default `ordered=True`), or the label count is not one fewer than
the edge count; in particular it fails on the claim's two examples — 3
boundaries with 1 label, and the non-monotonic boundaries `[0, 5, 3]`. The
failure is an uncaught exception in `load_data`, so it surfaces immediately
rather than being swallowed. -/
theorem cut_config_error_iff (bins : List ℚ) (labels : List String)
    (col : List (Option ℚ)) :
    ((∃ e, cut bins labels col = Except.error e) ↔
      (¬ List.Chain' (· ≤ ·) bins ∨
        (¬ bins.Nodup ∧ bins.length ≠ 2) ∨
        ¬ labels.Nodup ∨
        labels.length + 1 ≠ bins.length)) ∧
    cut [0, 4, 7] ["Low (0-4)"] col = Except.error ConfigError.labelMismatch ∧
    cut [0, 5, 3] ["Low (0-4)"] col = Except.error ConfigError.binsNotMonotonic := by
  refine ⟨?_, ?_, ?_⟩
  · by_cases h1 : hasDecreasingStep bins = true
    · have hnc : ¬ List.Chain' (· ≤ ·) bins := by
        rw [← hasDecreasingStep_iff, h1]
        simp
      simp [cut, h1, hnc]
    · have hch : List.Chain' (· ≤ ·) bins :=
        (hasDecreasingStep_iff bins).mp (Bool.eq_false_iff.mpr h1)
      by_cases h2 : (hasDup bins && decide (bins.length ≠ 2)) = true
      · rw [Bool.and_eq_true, decide_eq_true_eq] at h2
        have hnd : ¬ bins.Nodup := (hasDup_iff bins).mp h2.1
        simp [cut, h1, h2.1, h2.2, hch, hnd]
      · rw [Bool.and_eq_true, decide_eq_true_eq, not_and_or] at h2
        have hcond : ¬ (hasDup bins = true ∧ ¬ bins.length = 2) := by
          rcases h2 with h | h
          · exact fun hc => h hc.1
          · exact fun hc => hc.2 (by simpa using h)
        have hrhs : ¬ (¬ bins.Nodup ∧ bins.length ≠ 2) := fun hc =>
          hcond ⟨(hasDup_iff bins).mpr hc.1, hc.2⟩
        by_cases h3 : hasDup labels = true
        · have hnl : ¬ labels.Nodup := (hasDup_iff labels).mp h3
          simp [cut, h1, hcond, h3, hnl]
        · have hl : labels.Nodup := by
            by_contra hn
            exact h3 ((hasDup_iff labels).mpr hn)
          by_cases h4 : labels.length + 1 = bins.length
          · simp [cut, h1, hcond, h3, h4, hch, hl, hrhs]
          · simp [cut, h1, hcond, h3, h4]
  · have h1 : hasDecreasingStep [0, 4, 7] = false := by decide
    have h2 : hasDup [(0:ℚ), 4, 7] = false := by decide
    have h3 : hasDup ["Low (0-4)"] = false := by decide
    simp [cut, h1, h2, h3]
  · have h1 : hasDecreasingStep [0, 5, 3] = true := by decide
    simp [cut, h1]

/-- C9: the `Suicide_Attempts_Label` lambda yields `"Yes"` exactly when the
cell holds a number strictly greater than `0`, and `"No"` in every other
case; in particular a missing cell (NaN, for which `NaN > 0` is false)
yields `"No"`, unlike the map-based label derivations, whose `fillna`
sentinel for a missing cell is `"Unknown"`. -/
theorem suicide_attempts_label_spec :
    (∀ x : Option ℚ,
      (suicide_attempts_label x = "Yes" ↔ ∃ v, x = some v ∧ 0 < v)) ∧
    (∀ x : Option ℚ,
      suicide_attempts_label x = "Yes" ∨ suicide_attempts_label x = "No") ∧
    suicide_attempts_label none = "No" ∧
    (∀ mapping : List (ℚ × String),
      applyLabelMapping mapping "Unknown" [none] = [some "Unknown"]) ∧
    ("No" : String) ≠ "Unknown" := by
  refine ⟨?_, ?_, rfl, ?_, by decide⟩
  · intro x
    cases x with
    | none => simp [suicide_attempts_label]
    | some v =>
      by_cases hv : 0 < v
      · simp [suicide_attempts_label, hv]
      · simp [suicide_attempts_label, hv]
  · intro x
    cases x with
    | none => exact Or.inr rfl
    | some v =>
      by_cases hv : 0 < v
      · exact Or.inl (by simp [suicide_attempts_label, hv])
      · exact Or.inr (by simp [suicide_attempts_label, hv])
  · intro mapping
    simp [applyLabelMapping, seriesMap, fillna]

/-- A sample frame holding every column `mentalhealth.py` derives from, with
a sleep column whose maximum exceeds 8. -/
def mhDemoDf : Df :=
  [("Gender", [some 1]), ("Mental_Health_Support", [some 0]),
   ("Self_Harm", [some 0]), ("Suicide_Attempts", [some 0]),
   ("Education_Level", [some 2]), ("Depression_Score", [some 3]),
   ("Sleep_Hours", [some 9])]

/-- C10: the `Sleep_Hours_Category` derivation computes its top bin edge as
`max(Sleep_Hours)` at derivation time, so its bin list `[0, 5, 8, max]` is
accepted — and the derivation succeeds — exactly when the observed maximum
exists and exceeds 8; and whenever the whole `load_data` preparation
succeeds, the sleep column it read necessarily had maximum above 8 (so for a
maximum of 8 or less, or an entirely missing column, the preparation raises
and every downstream chart is aborted). -/
theorem sleep_binning_max_precondition :
    (∀ sleep : List (Option ℚ),
      ((∃ r, sleepDerivation sleep = Except.ok r) ↔
        (∃ m, colMax sleep = some m ∧ 8 < m))) ∧
    (∀ df sl, (∃ p, mhDerive df = Except.ok p) →
      df.lookup "Sleep_Hours" = some sl →
      ∃ m, colMax sl = some m ∧ 8 < m) := by
  refine ⟨sleepDerivation_ok_iff, ?_⟩
  rintro df sl ⟨p, hp⟩ hsl
  simp only [mhDerive] at hp
  obtain ⟨g, hg, hp⟩ := except_bind_ok _ _ _ hp
  obtain ⟨su, hsu, hp⟩ := except_bind_ok _ _ _ hp
  obtain ⟨sh, hsh, hp⟩ := except_bind_ok _ _ _ hp
  obtain ⟨sa, hsa, hp⟩ := except_bind_ok _ _ _ hp
  obtain ⟨ed, hed, hp⟩ := except_bind_ok _ _ _ hp
  obtain ⟨dep, hdep, hp⟩ := except_bind_ok _ _ _ hp
  obtain ⟨ds, hds, hp⟩ := except_bind_ok _ _ _ hp
  obtain ⟨sl2, hsl2, hp⟩ := except_bind_ok _ _ _ hp
  obtain ⟨sc, hsc, hp⟩ := except_bind_ok _ _ _ hp
  have hsl2e : sl = sl2 := by
    simp [getCol, hsl] at hsl2
    exact hsl2
  exact (sleepDerivation_ok_iff sl).mp
    ⟨sc, hsl2e ▸ except_mapError_ok _ _ _ hsc⟩

/-- Witness for C10: a frame on which the whole preparation succeeds and whose
sleep column has maximum 9. -/
theorem sleep_binning_max_precondition_witness :
    (∃ p, mhDerive mhDemoDf = Except.ok p) ∧
    mhDemoDf.lookup "Sleep_Hours" = some [some (9:ℚ)] ∧
    (∃ m, colMax [some (9:ℚ)] = some m ∧ 8 < m) :=
  ⟨except_isOk_exists _ (by decide), by decide,
    sleep_binning_max_precondition.2 mhDemoDf [some 9]
      (except_isOk_exists _ (by decide)) (by decide)⟩

end EC2024
